import Mathlib

set_option maxRecDepth 100000

/-!
Shallow embedding of the gob asset pipeline (src/src/asset/*), used to check
the natural-language specification against the code.

Conventions of the embedding:
* bytes are `Nat`s (< 256 where it matters), byte strings are `List Nat`;
* `u64` / `usize` values are `Nat`s (with explicit `< 2^64` bounds where the
  encoding needs them); the build targets a 64-bit little-endian platform,
  so `usize` is 8 bytes and `to_ne_bytes` is little-endian;
* `HashSet<AssetId>` is modelled as a duplicate-free list in insertion
  order (`insertSet` mirrors `HashSet::insert`);
* Rust functions that can panic (slice indexing, `copy_from_slice` with a
  length mismatch) return a result type with an explicit `panic` outcome;
* the file system is a finite association map from paths to byte strings,
  threaded explicitly; writes in the model always succeed;
* `AssetId::gen` (a hash of a fresh ULID) is determinized as a counter
  threaded through the store: fresh, unique ids;
* TOML sidecar (de)serialization is an out-of-scope collaborator per the
  spec; a sidecar is modelled as the 8-byte little-endian id it pins
  (settings are opaque and never inspected by the pipeline logic modelled
  here).
-/

/-- Little-endian encoding of `n` into `k` bytes (`to_le_bytes`). -/
def toLE : Nat → Nat → List Nat
  | 0, _ => []
  | k + 1, n => (n % 256) :: toLE k (n / 256)

/-- Little-endian decoding of a byte string (`from_le_bytes`). -/
def fromLE (bytes : List Nat) : Nat :=
  bytes.foldr (fun b acc => b + 256 * acc) 0

/-- Result of a Rust function returning `Option<T>` that may also panic. -/
inductive RustVal (α : Type) where
  | panic : RustVal α
  | value : Option α → RustVal α
  deriving DecidableEq

/-! Byte codec, from src/src/asset/bytes.rs.  `copy_from_slice` panics when
the source slice length differs from 8; slice indexing `&bytes[a..b]` panics
when `b` exceeds the slice length. -/

/-- IntoBytes for usize: `self.to_le_bytes().to_vec()` (bytes.rs:8). -/
def usize_into_bytes (n : Nat) : List Nat := toLE 8 n

/-- IntoBytes for usize, decode: `buf.copy_from_slice(&bytes)` panics unless
the input is exactly 8 bytes; otherwise always `Some` (bytes.rs:13). -/
def usize_from_bytes (bytes : List Nat) : RustVal Nat :=
  if bytes.length = 8 then .value (some (fromLE bytes)) else .panic

/-- IntoBytes for u64: identical shape to usize (bytes.rs:20). -/
def u64_into_bytes (n : Nat) : List Nat := toLE 8 n

/-- IntoBytes for u64, decode (bytes.rs:25): panics unless exactly 8 bytes. -/
def u64_from_bytes (bytes : List Nat) : RustVal Nat :=
  if bytes.length = 8 then .value (some (fromLE bytes)) else .panic

/-- HashSet::insert on the list model of a hash set. -/
def insertSet (l : List Nat) (x : Nat) : List Nat :=
  if x ∈ l then l else l ++ [x]

/-- LoadContext dependency collection: repeated `HashSet::insert`. -/
def dedup (l : List Nat) : List Nat := l.foldl insertSet []

/-- IntoBytes for HashSet, encode (bytes.rs:33): `len ‖ repeat (item_len ‖ item)`. -/
def hashset_body : List Nat → List Nat
  | [] => []
  | x :: rest =>
    usize_into_bytes (u64_into_bytes x).length ++ u64_into_bytes x ++ hashset_body rest

/-- IntoBytes for HashSet, encode, with the leading length (bytes.rs:33). -/
def hashset_into_bytes (l : List Nat) : List Nat :=
  usize_into_bytes l.length ++ hashset_body l

/-- Loop of HashSet::from_bytes (bytes.rs:49): reads `n` items, each a
`u64` length prefix followed by that many bytes; the slicings panic on
truncation, `I::from_bytes` panics on an inner length other than 8. -/
def hashset_items_from_bytes : Nat → List Nat → List Nat → RustVal (List Nat)
  | 0, _, acc => .value (some acc)
  | n + 1, bytes, acc =>
    if bytes.length < 8 then .panic
    else
      match usize_from_bytes (bytes.take 8) with
      | .panic => .panic
      | .value none => .value none
      | .value (some itemLen) =>
        let rest := bytes.drop 8
        if rest.length < itemLen then .panic
        else
          match u64_from_bytes (rest.take itemLen) with
          | .panic => .panic
          | .value none => .value none
          | .value (some v) =>
            hashset_items_from_bytes n (rest.drop itemLen) (insertSet acc v)

/-- HashSet::from_bytes (bytes.rs:44): reads the outer length then the items. -/
def hashset_from_bytes (bytes : List Nat) : RustVal (List Nat) :=
  if bytes.length < 8 then .panic
  else
    match usize_from_bytes (bytes.take 8) with
    | .panic => .panic
    | .value none => .value none
    | .value (some len) => hashset_items_from_bytes len (bytes.drop 8) []

/-! CRC32 (crc32fast): standard IEEE CRC-32, reflected polynomial
0xEDB88320, initial value 0xFFFFFFFF, final xor 0xFFFFFFFF. -/

/-- Reflected CRC-32 polynomial. -/
def crc32_poly : Nat := 0xEDB88320

/-- One bit step of the reflected CRC-32. -/
def crc32_bit_step (c : Nat) : Nat :=
  if c % 2 = 1 then (c / 2) ^^^ crc32_poly else c / 2

/-- Iterate the bit step. -/
def crc32_iter : Nat → Nat → Nat
  | 0, c => c
  | n + 1, c => crc32_iter n (crc32_bit_step c)

/-- Absorb one byte into the CRC state. -/
def crc32_byte (c b : Nat) : Nat := crc32_iter 8 (c ^^^ (b % 256))

/-- Hasher::update / Hasher::write of crc32fast: absorb a byte string. -/
def crc32_update (c : Nat) (bytes : List Nat) : Nat := bytes.foldl crc32_byte c

/-- Hasher::new state. -/
def crc32_init : Nat := 0xFFFFFFFF

/-- Hasher::finalize. -/
def crc32_finalize (c : Nat) : Nat := c ^^^ 0xFFFFFFFF

/-- CRC32 of a byte string. -/
def crc32 (bytes : List Nat) : Nat := crc32_finalize (crc32_update crc32_init bytes)

/-- The std `Hash` encoding of a `[u8]` slice fed to a `Hasher`:
`write_usize(len)` (8 little-endian bytes on this platform) followed by
`write(bytes)`; crc32fast's `Hasher` only overrides `write`, so both calls
update the CRC state. -/
def hash_u8_slice (c : Nat) (bytes : List Nat) : Nat :=
  crc32_update (crc32_update c (toLE 8 bytes.length)) bytes

/-- AssetFileSystem::calculate_checksum (io/mod.rs:293): hashes the source
slice and the metadata slice through the std `Hash` trait into a
crc32fast hasher, then finalizes. -/
def calculate_checksum (asset metadata : List Nat) : Nat :=
  crc32_finalize (hash_u8_slice (hash_u8_slice crc32_init asset) metadata)

/-! File-system model.  Paths are symbolic: a source path is a stem plus an
optional extension (`PathExt::ext`), and the derived locations used by the
pipeline (`<path>.meta`, `.cache/artifacts/<id>`, `.temp/dependents/<id>`,
from config.rs) are distinct constructors. -/

/-- Source path with an optional extension, both abstracted to numbers. -/
structure SPath where
  stem : Nat
  ext : Option Nat
  deriving DecidableEq

/-- File locations the import pipeline touches. -/
inductive FPath where
  | source (p : SPath)
  | meta (p : SPath)
  | artifact (id : Nat)
  | dependents (id : Nat)
  deriving DecidableEq

/-- Association-list lookup. -/
def alookup {κ ν : Type} [DecidableEq κ] : List (κ × ν) → κ → Option ν
  | [], _ => none
  | (k, v) :: rest, key => if key = k then some v else alookup rest key

/-- Association-list insert-or-replace, keeping insertion order. -/
def ainsert {κ ν : Type} [DecidableEq κ] : List (κ × ν) → κ → ν → List (κ × ν)
  | [], key, v => [(key, v)]
  | (k, w) :: rest, key, v =>
    if key = k then (k, v) :: rest else (k, w) :: ainsert rest key v

/-- Association-list erase. -/
def aerase {κ ν : Type} [DecidableEq κ] : List (κ × ν) → κ → List (κ × ν)
  | [], _ => []
  | (k, w) :: rest, key => if key = k then rest else (k, w) :: aerase rest key

/-- The backing store: files plus the determinized `AssetId::gen` supply. -/
structure Store where
  files : List (FPath × List Nat)
  nextId : Nat
  deriving DecidableEq

/-- FileSystem::write in the model: total. -/
def Store.write (s : Store) (p : FPath) (bytes : List Nat) : Store :=
  { s with files := ainsert s.files p bytes }

/-- FileSystem::remove in the model. -/
def Store.removeFile (s : Store) (p : FPath) : Store :=
  { s with files := aerase s.files p }

/-- IO error kinds (io/mod.rs AssetIoError, plus the InvalidData io::Error). -/
inductive MIoErr where
  | notFound
  | ioErr
  | invalidData
  deriving DecidableEq

/-- ArtifactMeta (artifact.rs:4): id, type, checksum, mtime, declared deps. -/
structure MArtifactMeta where
  id : Nat
  ty : Nat
  checksum : Nat
  modified : Nat
  dependencies : List Nat
  deriving DecidableEq

/-- Artifact (artifact.rs:87): meta plus payload bytes. -/
structure MArtifact where
  meta : MArtifactMeta
  payload : List Nat
  deriving DecidableEq

/-- Modelled from the spec: the `IntoBytes` impl for `ArtifactMeta` is
`todo!()` in artifact.rs:77; the spec fixes the encoding as
`u64 id ‖ u64 ty ‖ u32 checksum ‖ u64 modified ‖ set<AssetId> encoding`. -/
def artifact_meta_into_bytes (m : MArtifactMeta) : List Nat :=
  toLE 8 m.id ++ toLE 8 m.ty ++ toLE 4 m.checksum ++ toLE 8 m.modified ++
    hashset_into_bytes m.dependencies

/-- Modelled from the spec: total decoder for the set item loop; per the
spec, decoding fails (`none`) on truncation or inconsistent inner length. -/
def set_items_safe : Nat → List Nat → List Nat → Option (List Nat)
  | 0, leftover, acc => if leftover = [] then some acc else none
  | n + 1, bytes, acc =>
    if bytes.length < 16 then none
    else
      let itemLen := fromLE (bytes.take 8)
      let rest := bytes.drop 8
      if itemLen = 8 then set_items_safe n (rest.drop 8) (insertSet acc (fromLE (rest.take 8)))
      else none

/-- Modelled from the spec: total decoder for `set<AssetId>`, consuming the
whole input. -/
def set_from_bytes_safe (bytes : List Nat) : Option (List Nat) :=
  if bytes.length < 8 then none
  else set_items_safe (fromLE (bytes.take 8)) (bytes.drop 8) []

/-- Modelled from the spec: `ArtifactMeta::from_bytes` is `todo!()` in the
source; decodes the five fields at their fixed offsets, failing on
truncation. -/
def artifact_meta_from_bytes (bytes : List Nat) : Option MArtifactMeta :=
  if bytes.length < 28 then none
  else
    match set_from_bytes_safe (bytes.drop 28) with
    | none => none
    | some deps =>
      some ⟨fromLE (bytes.take 8), fromLE ((bytes.drop 8).take 8),
        fromLE ((bytes.drop 16).take 4), fromLE ((bytes.drop 20).take 8), deps⟩

/-- Modelled from the spec: `Artifact::into_bytes` is `todo!()` in the
source; the spec fixes `u64_le meta_len ‖ meta bytes ‖ payload`. -/
def artifact_into_bytes (a : MArtifact) : List Nat :=
  toLE 8 (artifact_meta_into_bytes a.meta).length ++ artifact_meta_into_bytes a.meta ++ a.payload

/-- Modelled from the spec: `Artifact::from_bytes` is `todo!()` in the
source; reads the 8-byte meta length, the meta, then the payload to EOF. -/
def artifact_from_bytes (bytes : List Nat) : Option MArtifact :=
  if bytes.length < 8 then none
  else
    let len := fromLE (bytes.take 8)
    let rest := bytes.drop 8
    if rest.length < len then none
    else
      match artifact_meta_from_bytes (rest.take len) with
      | none => none
      | some m => some ⟨m, rest.drop len⟩

/-- Result of a file-system load returning `Result<T, AssetIoError>`. -/
inductive FsOut (α : Type) where
  | err : MIoErr → FsOut α
  | ok : α → FsOut α
  deriving DecidableEq

/-- AssetFileSystem::load_artifact_meta (io/mod.rs:257): open the artifact
at `.cache/artifacts/<id>`, read the 8-byte length, read that many bytes,
decode the meta; the payload is not read. -/
def load_artifact_meta (fs : Store) (id : Nat) : FsOut MArtifactMeta :=
  match alookup fs.files (FPath.artifact id) with
  | none => .err .notFound
  | some bytes =>
    if bytes.length < 8 then .err .ioErr
    else
      let len := fromLE (bytes.take 8)
      let rest := bytes.drop 8
      if rest.length < len then .err .ioErr
      else
        match artifact_meta_from_bytes (rest.take len) with
        | none => .err .invalidData
        | some m => .ok m

/-- AssetFileSystem::load_artifact (io/mod.rs:276): read the whole file and
decode it as an Artifact. -/
def load_artifact (fs : Store) (id : Nat) : FsOut MArtifact :=
  match alookup fs.files (FPath.artifact id) with
  | none => .err .notFound
  | some bytes =>
    match artifact_from_bytes bytes with
    | none => .err .invalidData
    | some a => .ok a

/-! Importer registry and the erased import/process/save pipeline, from
src/src/asset/database/importer.rs.  A registered importer is parametric in
user code (`I::import`, `Saver::save`); the model takes those as function
fields.  Asset values themselves are never inspected by the orchestration
logic, so `ImportedAsset`'s blob cells are reduced to the data the pipeline
reads: the built `ArtifactMeta` plus the source bytes the saver's payload
is a function of. -/

/-- ImportError causes (importer.rs CustomError / AssetIoError wrapping). -/
inductive MCause where
  | noExtension
  | noImporter
  | io (e : MIoErr)
  | importerErr
  | processorErr
  deriving DecidableEq

/-- ImportError (importer.rs:19): path is implicit in the call site; the
model keeps the id and the optional previous artifact meta. -/
structure MImportError where
  id : Nat
  cause : MCause
  artifact : Option MArtifactMeta
  deriving DecidableEq

/-- Type-erased importer: the asset-type tag, the user importer (given the
path and source bytes it either fails or yields the declared dependency ids
in `add_dependency` order), the saver's payload, an optional processor. -/
structure MImporter where
  ty : Nat
  importFn : SPath → List Nat → Option (List Nat)
  savePayload : SPath → List Nat → List Nat
  hasProcessor : Bool
  processOk : Bool

/-- AssetDatabase: importer registry (ty-keyed quartet table plus the
extension map) and the AssetLibrary's two directions. -/
structure MDb where
  importers : List (Nat × MImporter)
  exts : List (Nat × Nat)
  libraryIds : List (SPath × Nat)
  libraryPaths : List (Nat × SPath)

/-- AssetImporters::importer_by_ext (importer.rs:417). -/
def importer_by_ext (db : MDb) (ext : Nat) : Option MImporter :=
  match alookup db.exts ext with
  | none => none
  | some ty => alookup db.importers ty

/-- AssetLibrary::insert (database/library.rs:20): inserts into both maps,
returning the displaced entries.  The import pipeline in
database/importer.rs never calls it. -/
def library_insert (db : MDb) (id : Nat) (p : SPath) :
    MDb × Option Nat × Option SPath :=
  ({ db with
      libraryIds := ainsert db.libraryIds p id
      libraryPaths := ainsert db.libraryPaths id p },
    alookup db.libraryIds p, alookup db.libraryPaths id)

/-- ImportedAsset, reduced to what the pipeline reads from it. -/
structure MImportedAsset where
  artifact : MArtifactMeta
  srcBytes : List Nat
  deriving DecidableEq

/-- SavedAsset (importer.rs:258), without the opaque asset blob. -/
structure MSavedAsset where
  meta : MArtifactMeta
  prevMeta : Option MArtifactMeta
  removedDependencies : List Nat
  deriving DecidableEq

/-- Loading the sidecar (`fs.load_metadata(path).unwrap_or_default()`,
importer.rs:305): an existing well-formed sidecar yields its pinned id;
absence or a parse failure yields a default metadata with a fresh id. -/
def load_metadata_or_default (fs : Store) (p : SPath) : Nat × Store :=
  match alookup fs.files (FPath.meta p) with
  | some bytes =>
    if bytes.length = 8 then (fromLE bytes, fs)
    else (fs.nextId, { fs with nextId := fs.nextId + 1 })
  | none => (fs.nextId, { fs with nextId := fs.nextId + 1 })

/-- Serialized sidecar bytes (TOML serialization is out of scope; the model
stores the pinned id). -/
def metadata_into_bytes (id : Nat) : List Nat := toLE 8 id

/-- Result of an erased pipeline step returning `Result<T, ImportError>`. -/
inductive ImpOut (α : Type) where
  | err : MImportError → ImpOut α
  | ok : α → ImpOut α
  deriving DecidableEq

/-- The erased `import` closure (importer.rs:304): load-or-default the
sidecar, write it back (materializing a stable id and the metadata bytes),
read the source bytes, run the typed import, compute mtime (the model store
has no mtimes, so `unwrap_or_default` gives 0) and the checksum, and build
the ArtifactMeta whose dependencies come from the LoadContext. -/
def erased_import (imp : MImporter) (fs0 : Store) (p : SPath) :
    Store × ImpOut MImportedAsset :=
  let (id, fs1) := load_metadata_or_default fs0 p
  let metabytes := metadata_into_bytes id
  let fs2 := fs1.write (FPath.meta p) metabytes
  match alookup fs2.files (FPath.source p) with
  | none => (fs2, .err ⟨id, .io .notFound, none⟩)
  | some bytes =>
    match imp.importFn p bytes with
    | none => (fs2, .err ⟨id, .importerErr, none⟩)
    | some deps =>
      (fs2, .ok ⟨⟨id, imp.ty, calculate_checksum bytes metabytes, 0, dedup deps⟩, bytes⟩)

/-- The erased `save` closure (importer.rs:329): read the previous
ArtifactMeta from `.cache/artifacts/<id>` if any, serialize the payload,
encode the combined artifact, write it — to the *source* path argument, as
the code does — and compute `removed = prev.dependencies − new`.  The model
write is total, so the write-failure branch carrying the previous meta is
unreachable here. -/
def erased_save (imp : MImporter) (fs0 : Store) (p : SPath) (ia : MImportedAsset) :
    Store × ImpOut MSavedAsset :=
  let prev := match load_artifact_meta fs0 ia.artifact.id with
    | .ok m => some m
    | .err _ => none
  let payload := imp.savePayload p ia.srcBytes
  let bytes := artifact_into_bytes ⟨ia.artifact, payload⟩
  let fs1 := fs0.write (FPath.source p) bytes
  let removed := match prev with
    | some pm => pm.dependencies.filter (fun d => ¬ d ∈ ia.artifact.dependencies)
    | none => []
  (fs1, .ok ⟨ia.artifact, prev, removed⟩)

/-- AssetStore, reduced to the loaded ids and their artifact metas. -/
abbrev MAssetStore : Type := List (Nat × MArtifactMeta)

/-- AssetStore::contains. -/
def store_contains (store : MAssetStore) (id : Nat) : Bool :=
  (alookup store id).isSome

/-- ProcessContext::asset (importer.rs:124): membership in the declared
dependency set gates the store lookup. -/
def ctx_asset (deps : List Nat) (store : MAssetStore) (id : Nat) : Option MArtifactMeta :=
  if id ∈ deps then alookup store id else none

/-- load_import_dependencies (importer.rs:561).  Note the first arm: when
an id is already present the source does `return`, not `continue`, ending
the whole loop; every other skip is a `continue`. -/
def load_import_dependencies (db : MDb) (fs : Store) :
    List Nat → MAssetStore → MAssetStore
  | [], store => store
  | id :: rest, store =>
    if store_contains store id then store
    else
      match load_artifact fs id with
      | .err _ => load_import_dependencies db fs rest store
      | .ok art =>
        match alookup db.importers art.meta.ty with
        | none => load_import_dependencies db fs rest store
        | some _ =>
          load_import_dependencies db fs rest (ainsert store id art.meta)

/-- import_asset (importer.rs:470): dispatch by extension (failures carry
`AssetId::default()`, i.e. 0), run the erased import, then — only when a
processor is attached — load the declared dependencies and process, and
finally save. -/
def import_asset (db : MDb) (fs : Store) (store : MAssetStore) (p : SPath) :
    Store × MAssetStore × ImpOut MSavedAsset :=
  match p.ext with
  | none => (fs, store, .err ⟨0, .noExtension, none⟩)
  | some ext =>
    match importer_by_ext db ext with
    | none => (fs, store, .err ⟨0, .noImporter, none⟩)
    | some imp =>
      match erased_import imp fs p with
      | (fs1, .err e) => (fs1, store, .err e)
      | (fs1, .ok ia) =>
        if imp.hasProcessor then
          let store1 := load_import_dependencies db fs1 ia.artifact.dependencies store
          if imp.processOk then
            let (fs2, r) := erased_save imp fs1 p ia
            (fs2, store1, r)
          else (fs1, store1, .err ⟨ia.artifact.id, .processorErr, none⟩)
        else
          let (fs2, r) := erased_save imp fs1 p ia
          (fs2, store, r)

/-! Batch orchestration: DependentUpdates accumulation, the
reverse-dependency file update, import_assets, chunked_import and the
full_import fixed-point loop (importer.rs:439-609). -/

/-- DependentUpdates (importer.rs:440). -/
structure MDependentUpdates where
  added : List Nat
  removed : List Nat
  deriving DecidableEq

/-- The per-target update table (`HashMap<AssetId, DependentUpdates>`),
modelled in insertion order. -/
abbrev MUpdates : Type := List (Nat × MDependentUpdates)

/-- `dep_updates.entry(id).or_insert_with(new).add(adder)` (importer.rs:541). -/
def upd_add (upds : MUpdates) (target adder : Nat) : MUpdates :=
  match alookup upds target with
  | some u => ainsert upds target { u with added := insertSet u.added adder }
  | none => ainsert upds target ⟨[adder], []⟩

/-- `dep_updates.entry(id).or_insert_with(new).remove(adder)` (importer.rs:546). -/
def upd_remove (upds : MUpdates) (target adder : Nat) : MUpdates :=
  match alookup upds target with
  | some u => ainsert upds target { u with removed := insertSet u.removed adder }
  | none => ainsert upds target ⟨[], [adder]⟩

/-- Outcome of update_dependents: a panic (from the decoder), an io error
(propagated by the `?` on `fs.read`), or the updated store. -/
inductive UpdOut where
  | panic
  | err (e : MIoErr)
  | ok (fs : Store)
  deriving DecidableEq

/-- update_dependents (importer.rs:591): `fs.read(&path)?` propagates an
error when the file is absent (no fallback to empty); a decode returning
`None` is defaulted to the empty set (and a malformed file makes the
decoder panic); then `set := (set ∪ added) − removed` and write-back or
remove. -/
def update_dependents (fs : Store) (id : Nat) (updates : MDependentUpdates) : UpdOut :=
  match alookup fs.files (FPath.dependents id) with
  | none => .err .notFound
  | some bytes =>
    match hashset_from_bytes bytes with
    | .panic => .panic
    | .value dec =>
      let dependents := dec.getD []
      let dependents := updates.added.foldl insertSet dependents
      let dependents := dependents.filter (fun x => ¬ x ∈ updates.removed)
      if dependents = [] then .ok (fs.removeFile (FPath.dependents id))
      else .ok (fs.write (FPath.dependents id) (hashset_into_bytes dependents))

/-- Outcome of a batch: the stream either panics or yields the store and
the returned id set. -/
inductive BatchOut where
  | panic
  | ok (fs : Store) (ids : List Nat)
  deriving DecidableEq

/-- One iteration of the collection loop of import_assets (importer.rs:535):
a failed path is skipped (contributing nothing to `dep_updates`); a saved
asset adds its id under every declared dependency and removes it under
every removed dependency. -/
def collect_step (db : MDb) (st : Store × MAssetStore × MUpdates) (p : SPath) :
    Store × MAssetStore × MUpdates :=
  match import_asset db st.1 st.2.1 p with
  | (fs1, store1, .err _) => (fs1, store1, st.2.2)
  | (fs1, store1, .ok saved) =>
    let upds := saved.meta.dependencies.foldl (fun u d => upd_add u d saved.meta.id) st.2.2
    let upds := saved.removedDependencies.foldl (fun u d => upd_remove u d saved.meta.id) upds
    (fs1, store1, upds)

/-- The application loop of import_assets (importer.rs:553): each target's
update is applied with `let _ = update_dependents(..)` — the error is
discarded — and the target's `added` ids are accumulated into the returned
set unconditionally. -/
def apply_updates : Store → List Nat → MUpdates → BatchOut
  | fs, ret, [] => .ok fs ret
  | fs, ret, (id, u) :: rest =>
    match update_dependents fs id u with
    | .panic => .panic
    | .err _ => apply_updates fs (u.added.foldl insertSet ret) rest
    | .ok fs1 => apply_updates fs1 (u.added.foldl insertSet ret) rest

/-- import_assets (importer.rs:527): run every path through import_asset
against a fresh AssetStore, then apply the collected updates. -/
def import_assets (db : MDb) (fs : Store) (paths : List SPath) : BatchOut :=
  let st := paths.foldl (collect_step db) (fs, ([] : MAssetStore), ([] : MUpdates))
  apply_updates st.1 [] st.2.2

/-- `paths.chunks(250)` (importer.rs:519), written with a length fuel so it
reduces structurally; the fuel never runs out since each step consumes at
least one element. -/
def chunks250_go : Nat → List SPath → List (List SPath)
  | _, [] => []
  | 0, l => [l]
  | n + 1, l => l.take 250 :: chunks250_go n (l.drop 250)

/-- `paths.chunks(250)`. -/
def chunks250 (l : List SPath) : List (List SPath) := chunks250_go l.length l

/-- chunked_import (importer.rs:512): run each chunk and union the
returned ids. -/
def chunked_go (db : MDb) : Store → List Nat → List (List SPath) → BatchOut
  | fs, ret, [] => .ok fs ret
  | fs, ret, chunk :: rest =>
    match import_assets db fs chunk with
    | .panic => .panic
    | .ok fs1 ids => chunked_go db fs1 (ids.foldl insertSet ret) rest

/-- chunked_import (importer.rs:512). -/
def chunked_import (db : MDb) (fs : Store) (paths : List SPath) : BatchOut :=
  chunked_go db fs [] (chunks250 paths)

/-- Terminal outcome of full_import. -/
inductive FullOut where
  | panic
  | ok (fs : Store)
  deriving DecidableEq

/-- The `while !dependents.is_empty()` loop of full_import
(importer.rs:503), with a fuel bound on the number of iterations: `none`
means the loop had not terminated within the fuel. -/
def full_import_loop (db : MDb) : Nat → List Nat → Store → Option FullOut
  | 0, _, _ => none
  | fuel + 1, deps, fs =>
    if deps.isEmpty then some (.ok fs)
    else
      let paths := deps.filterMap (fun id => alookup db.libraryPaths id)
      match chunked_import db fs paths with
      | .panic => some .panic
      | .ok fs1 ids => full_import_loop db fuel ids fs1

/-- full_import (importer.rs:499): seed the dependents set with the first
chunked_import, then loop, mapping ids through the AssetLibrary to paths. -/
def full_import (db : MDb) (fuel : Nat) (paths : List SPath) (fs : Store) : Option FullOut :=
  match chunked_import db fs paths with
  | .panic => some .panic
  | .ok fs1 ids => full_import_loop db fuel ids fs1

/-! Concrete scenario material used by the claim theorems. -/

/-- Projection: the resulting store of a batch, `none` on panic. -/
def BatchOut.storeOf : BatchOut → Option Store
  | .panic => none
  | .ok fs _ => some fs

/-- Projection: the returned id set of a batch, `none` on panic. -/
def BatchOut.idsOf : BatchOut → Option (List Nat)
  | .panic => none
  | .ok _ ids => some ids

/-- A source path `a.0`: stem 0 with extension 0. -/
def pathA : SPath := ⟨0, some 0⟩

/-- A source path with no extension. -/
def pNoExt : SPath := ⟨0, none⟩

/-- A source path whose extension 99 has no registered importer. -/
def pBadExt : SPath := ⟨0, some 99⟩

/-- A registered importer: asset type 10, extension 0, declaring a
dependency on id 2 on every import, empty payload, no processor. -/
def impBase : MImporter :=
  ⟨10, fun _ _ => some [2], fun _ _ => [], false, true⟩

/-- A database with `impBase` registered under extension 0 and an empty
library. -/
def dbBase : MDb := ⟨[(10, impBase)], [(0, 10)], [], []⟩

/-- An empty store. -/
def fsW : Store := ⟨[], 0⟩

/-- A store holding one fresh source `a.0` with bytes `[7]` and no sidecar;
the id supply starts at 1. -/
def fsFresh : Store := ⟨[(FPath.source pathA, [7])], 1⟩

/-- The union of all `added` sets of an update table, starting from `ret`. -/
def all_added (ret : List Nat) (upds : MUpdates) : List Nat :=
  upds.foldl (fun r e => e.2.added.foldl insertSet r) ret

/-- Artifact meta already loaded in the asset store under id 5 (type 10). -/
def c3Meta5 : MArtifactMeta := ⟨5, 10, 0, 0, []⟩

/-- Artifact meta of the loadable cached artifact with id 7 (type 10). -/
def c3Meta7 : MArtifactMeta := ⟨7, 10, 0, 0, []⟩

/-- A store whose artifact cache holds a valid artifact for id 7. -/
def c3Fs : Store := ⟨[(FPath.artifact 7, artifact_into_bytes ⟨c3Meta7, []⟩)], 0⟩

/-- A dependents file for target 2 currently holding `{9}`. -/
def c1FsPresent : Store := ⟨[(FPath.dependents 2, hashset_into_bytes [9])], 0⟩

/-- The database of the divergence scenario for full_import: `impBase`
under extension 0, and the library maps id 1 ↔ path `a.0`. -/
def c5Db : MDb := ⟨[(10, impBase)], [(0, 10)], [(pathA, 1)], [(1, pathA)]⟩

/-- Store family of the full_import divergence scenario: the sidecar of
`a.0` pins id 1 and the source holds bytes `b`. -/
def c5FsB (b : List Nat) : Store :=
  ⟨[(FPath.meta pathA, toLE 8 1), (FPath.source pathA, b)], 50⟩

/-- The artifact bytes a pass writes over the source in that scenario. -/
def c5Art (b : List Nat) : List Nat :=
  artifact_into_bytes ⟨⟨1, 10, calculate_checksum b (toLE 8 1), 0, [2]⟩, []⟩

/-- Divergence of full_import on the concrete scenario: no iteration bound
makes the loop finish. -/
def c5_diverges : Prop :=
  ∀ n, full_import c5Db n [pathA] (c5FsB [7]) = none

theorem toLE_length (k n : Nat) : (toLE k n).length = k := by
  induction k generalizing n with
  | zero => rfl
  | succ k ih => simp [toLE, ih]

theorem fromLE_toLE (k n : Nat) (h : n < 256 ^ k) : fromLE (toLE k n) = n := by
  induction k generalizing n with
  | zero =>
    simp [Nat.pow_zero, Nat.lt_one_iff] at h
    simp [toLE, fromLE, h]
  | succ k ih =>
    have hdiv : n / 256 < 256 ^ k := by
      rw [Nat.div_lt_iff_lt_mul (by norm_num : 0 < 256)]
      calc n < 256 ^ (k + 1) := h
        _ = 256 ^ k * 256 := by ring
    have := ih (n / 256) hdiv
    simp only [toLE, fromLE, List.foldr_cons]
    have hfold : (toLE k (n / 256)).foldr (fun b acc => b + 256 * acc) 0 = n / 256 := this
    rw [hfold]
    omega

/-- Sanity check: the CRC-32 check value, crc32(b"123456789") = 0xCBF43926. -/
theorem crc32_check_value :
    crc32 [0x31, 0x32, 0x33, 0x34, 0x35, 0x36, 0x37, 0x38, 0x39] = 0xCBF43926 := by
  decide

/-- Claim C1: the reverse-dependency update is claimed to treat an absent
`.temp/dependents/<id>` file as the empty set and then write the non-empty
result back.  In the code `fs.read(&path)?` propagates the NotFound error,
so with pending update `added = {1}` for target 2 and no existing file the
update is not applied and no file is created; when the file exists the
union-minus and write-back do behave as claimed (second conjunct:
`{9} ∪ {1} − {9} = {1}` is written back). -/
theorem c1_absent_file_errors :
    update_dependents fsW 2 ⟨[1], []⟩ = .err .notFound
    ∧ update_dependents c1FsPresent 2 ⟨[1], [9]⟩ =
        .ok ⟨[(FPath.dependents 2, hashset_into_bytes [1])], 0⟩ := by
  constructor
  · rfl
  · decide

/-- Claim C8: `from_bytes` is claimed total, returning `None` on truncation
or inconsistent inner length; in the code `copy_from_slice` and slice
indexing panic on wrong-length input: the empty slice for `u64`, a 1-byte
slice for `usize`, a set encoding announcing one item with no item bytes,
and a truncated outer length all panic. -/
theorem c8_from_bytes_panics :
    u64_from_bytes [] = .panic
    ∧ usize_from_bytes [0] = .panic
    ∧ hashset_from_bytes (toLE 8 1) = .panic
    ∧ hashset_from_bytes [0, 0, 0] = .panic := by
  decide

/-- Claim C3: every declared, loadable dependency is claimed to be loaded
into the shared AssetStore before process runs.  With declared dependencies
iterated as `[5, 7]`, id 5 already in the store and id 7 having a loadable
artifact of registered type, the `return` in load_import_dependencies ends
the loop at 5: the store is unchanged, 7 is never loaded, and
`ctx.asset(7)` is `none` — although 7 is declared, its artifact loads, and
its type is registered (conjuncts 3 and 4).  Iterating `[7, 5]` instead
loads 7 (last conjunct), showing the skip is the early return, not a
legitimate filter. -/
theorem c3_early_return_skips_load :
    load_import_dependencies dbBase c3Fs [5, 7] [(5, c3Meta5)] = [(5, c3Meta5)]
    ∧ ctx_asset [5, 7] (load_import_dependencies dbBase c3Fs [5, 7] [(5, c3Meta5)]) 7 = none
    ∧ load_artifact c3Fs 7 = .ok ⟨c3Meta7, []⟩
    ∧ (alookup dbBase.importers c3Meta7.ty).isSome = true
    ∧ ctx_asset [7, 5] (load_import_dependencies dbBase c3Fs [7, 5] [(5, c3Meta5)]) 7 =
        some c3Meta7 := by
  refine ⟨?_, ?_, ?_, rfl, ?_⟩
  · decide
  · decide
  · decide
  · decide

/-- Claim C4, counterexample: the recorded checksum is claimed to be the
CRC32 of the bare concatenation of source and metadata bytes; for empty
source and empty metadata the claimed value is CRC32 of the empty string
while calculate_checksum hashes two 8-byte length prefixes, and the values
differ. -/
theorem c4_counterexample :
    calculate_checksum [] [] ≠ crc32 ([] ++ []) := by
  decide

/-- Claim C2: the transpose invariant is claimed after every completed
batch.  Importing the fresh source `a.0` (importer declares dependency on
id 2) completes the batch with returned ids `{1}`, records `dependencies =
{2}` in the written artifact's meta, yet leaves `.temp/dependents/2`
absent — so `2 ∈ meta(1).dependencies` while `1 ∉ dependents(2)`. -/
theorem c2_transpose_fails :
    ((import_assets dbBase fsFresh [pathA]).storeOf.map
        (fun s => alookup s.files (FPath.dependents 2))) = some none
    ∧ (((import_assets dbBase fsFresh [pathA]).storeOf.bind
          (fun s => alookup s.files (FPath.source pathA))).bind
            artifact_from_bytes).map (fun a => a.meta.dependencies) = some [2]
    ∧ (import_assets dbBase fsFresh [pathA]).idsOf = some [1] := by
  refine ⟨?_, ?_, ?_⟩ <;> decide

/-- Claim C6: after a completed batch every sidecar id is claimed to be
mapped to its source path in the AssetLibrary.  The batch on the fresh
source `a.0` completes, materializes the sidecar pinning id 1, and the
written artifact carries id 1, but import_assets never calls
AssetLibrary::insert: the library still maps neither the path nor the id. -/
theorem c6_library_not_updated :
    ((import_assets dbBase fsFresh [pathA]).storeOf.map
        (fun s => alookup s.files (FPath.meta pathA))) = some (some (toLE 8 1))
    ∧ (((import_assets dbBase fsFresh [pathA]).storeOf.bind
          (fun s => alookup s.files (FPath.source pathA))).bind
            artifact_from_bytes).map (fun a => a.meta.id) = some 1
    ∧ alookup dbBase.libraryIds pathA = none
    ∧ alookup dbBase.libraryPaths 1 = none := by
  refine ⟨?_, ?_, rfl, rfl⟩ <;> decide

/-- Claim C9, counterexample: the claim says an id whose dependents-file
update was not applied is not used to queue further re-imports.  In the
fresh-source batch the update for target 2 fails (the file is absent, and
remains absent in the final store), yet the returned id set still contains
the added id 1. -/
theorem c9_counterexample :
    (import_assets dbBase fsFresh [pathA]).idsOf = some [1]
    ∧ ((import_assets dbBase fsFresh [pathA]).storeOf.map
        (fun s => alookup s.files (FPath.dependents 2))) = some none := by
  refine ⟨?_, ?_⟩ <;> decide

/-- Claim C4, amended: the checksum recorded in the ArtifactMeta equals the
CRC32 of the std-Hash stream of the two slices — the 8-byte little-endian
length of the source bytes, the source bytes, the 8-byte little-endian
length of the metadata bytes, then the metadata bytes — rather than of the
bare concatenation. -/
theorem c4_amended (a m : List Nat) :
    calculate_checksum a m = crc32 (toLE 8 a.length ++ a ++ toLE 8 m.length ++ m) := by
  simp [calculate_checksum, hash_u8_slice, crc32, crc32_update, List.foldl_append]

theorem insertSet_not_mem {l : List Nat} {x : Nat} (h : x ∉ l) :
    insertSet l x = l ++ [x] := by
  simp [insertSet, h]

theorem hashset_items_roundtrip (l : List Nat) :
    ∀ acc : List Nat, (∀ x ∈ l, x < 2 ^ 64) → (acc ++ l).Nodup →
      hashset_items_from_bytes l.length (hashset_body l) acc = .value (some (acc ++ l)) := by
  induction l with
  | nil =>
    intro acc _ _
    simp [hashset_body, hashset_items_from_bytes]
  | cons x t ih =>
    intro acc hlt hnd
    have hx : x < 256 ^ 8 := by
      have hx64 := hlt x (List.mem_cons_self x t)
      calc x < 2 ^ 64 := hx64
        _ = 256 ^ 8 := by norm_num
    have hxacc : x ∉ acc := by
      rw [List.nodup_append] at hnd
      intro hmem
      exact hnd.2.2 hmem (List.mem_cons_self x t)
    have hnd' : ((acc ++ [x]) ++ t).Nodup := by
      simpa using hnd
    have hbody : hashset_body (x :: t) = toLE 8 8 ++ (toLE 8 x ++ hashset_body t) := by
      simp [hashset_body, usize_into_bytes, u64_into_bytes, toLE_length]
    have htake8 : (toLE 8 8 ++ (toLE 8 x ++ hashset_body t)).take 8 = toLE 8 8 := by
      have h := List.take_left (toLE 8 8) (toLE 8 x ++ hashset_body t)
      rwa [toLE_length] at h
    have hdrop8 : (toLE 8 8 ++ (toLE 8 x ++ hashset_body t)).drop 8 = toLE 8 x ++ hashset_body t := by
      have h := List.drop_left (toLE 8 8) (toLE 8 x ++ hashset_body t)
      rwa [toLE_length] at h
    have htakex : (toLE 8 x ++ hashset_body t).take 8 = toLE 8 x := by
      have h := List.take_left (toLE 8 x) (hashset_body t)
      rwa [toLE_length] at h
    have hdropx : (toLE 8 x ++ hashset_body t).drop 8 = hashset_body t := by
      have h := List.drop_left (toLE 8 x) (hashset_body t)
      rwa [toLE_length] at h
    have h8 : usize_from_bytes (toLE 8 8) = .value (some 8) := by
      simp [usize_from_bytes, toLE_length, fromLE_toLE 8 8 (by norm_num)]
    have hxdec : u64_from_bytes (toLE 8 x) = .value (some x) := by
      simp [u64_from_bytes, toLE_length, fromLE_toLE 8 x hx]
    have hrec := ih (acc ++ [x]) (fun y hy => hlt y (List.mem_cons_of_mem x hy)) hnd'
    simp only [List.length_cons, hbody, hashset_items_from_bytes, List.length_append,
      toLE_length, htake8, hdrop8, htakex, hdropx, h8, hxdec,
      insertSet_not_mem hxacc, hrec]
    simp

/-- Claim C7: the byte codec round-trips: decoding the encoding of any
`u64`, any `usize`, and any finite `HashSet<AssetId>` (a duplicate-free
list of 64-bit ids in iteration order, with fewer than `2^64` elements)
yields the original value. -/
theorem c7_roundtrip :
    (∀ n : Nat, n < 2 ^ 64 → u64_from_bytes (u64_into_bytes n) = .value (some n))
    ∧ (∀ n : Nat, n < 2 ^ 64 → usize_from_bytes (usize_into_bytes n) = .value (some n))
    ∧ (∀ l : List Nat, l.Nodup → (∀ x ∈ l, x < 2 ^ 64) → l.length < 2 ^ 64 →
        hashset_from_bytes (hashset_into_bytes l) = .value (some l)) := by
  have h256 : (2 : Nat) ^ 64 = 256 ^ 8 := by norm_num
  refine ⟨?_, ?_, ?_⟩
  · intro n hn
    rw [h256] at hn
    simp [u64_from_bytes, u64_into_bytes, toLE_length, fromLE_toLE 8 n hn]
  · intro n hn
    rw [h256] at hn
    simp [usize_from_bytes, usize_into_bytes, toLE_length, fromLE_toLE 8 n hn]
  · intro l hnd hlt hlen
    rw [h256] at hlen
    have htake : (toLE 8 l.length ++ hashset_body l).take 8 = toLE 8 l.length := by
      have h := List.take_left (toLE 8 l.length) (hashset_body l)
      rwa [toLE_length] at h
    have hdrop : (toLE 8 l.length ++ hashset_body l).drop 8 = hashset_body l := by
      have h := List.drop_left (toLE 8 l.length) (hashset_body l)
      rwa [toLE_length] at h
    have hlendec : usize_from_bytes (toLE 8 l.length) = .value (some l.length) := by
      simp [usize_from_bytes, toLE_length, fromLE_toLE 8 l.length hlen]
    have hitems := hashset_items_roundtrip l [] hlt (by simpa using hnd)
    simp only [hashset_from_bytes, hashset_into_bytes, usize_into_bytes,
      List.length_append, toLE_length, htake, hdrop, hlendec, hitems]
    simp

/-- Witness for C7 at concrete inputs. -/
theorem c7_roundtrip_witness :
    u64_from_bytes (u64_into_bytes 5) = .value (some 5)
    ∧ usize_from_bytes (usize_into_bytes 7) = .value (some 7)
    ∧ hashset_from_bytes (hashset_into_bytes [3, 1]) = .value (some [3, 1]) :=
  ⟨c7_roundtrip.1 5 (by norm_num),
   c7_roundtrip.2.1 7 (by norm_num),
   c7_roundtrip.2.2 [3, 1] (by decide) (by decide) (by norm_num)⟩

/-- Claim C9, amended: a path whose single-asset import failed contributes
no dependent updates (first conjunct: the update table is unchanged by a
failing path), but the returned id set is the union of all accumulated
`added` ids whether or not the corresponding dependents-file update was
applied — update errors are discarded (second conjunct: any successful
batch returns exactly the folded union of the added sets). -/
theorem c9_amended :
    (∀ (db : MDb) (fs : Store) (store : MAssetStore) (upds : MUpdates) (p : SPath)
        (fs1 : Store) (store1 : MAssetStore) (e : MImportError),
        import_asset db fs store p = (fs1, store1, .err e) →
        collect_step db (fs, store, upds) p = (fs1, store1, upds))
    ∧ (∀ (fs : Store) (ret : List Nat) (upds : MUpdates) (fs1 : Store) (ids : List Nat),
        apply_updates fs ret upds = .ok fs1 ids → ids = all_added ret upds) := by
  constructor
  · intro db fs store upds p fs1 store1 e h
    simp [collect_step, h]
  · intro fs ret upds
    induction upds generalizing fs ret with
    | nil =>
      intro fs1 ids h
      simp only [apply_updates, BatchOut.ok.injEq] at h
      simp [all_added, h.2]
    | cons hd rest ih =>
      intro fs1 ids h
      obtain ⟨id, u⟩ := hd
      simp only [apply_updates] at h
      cases hu : update_dependents fs id u with
      | panic => rw [hu] at h; simp at h
      | err e =>
        rw [hu] at h
        simp only [] at h
        have h2 := ih fs (u.added.foldl insertSet ret) fs1 ids h
        simpa [all_added] using h2
      | ok fs2 =>
        rw [hu] at h
        simp only [] at h
        have h2 := ih fs2 (u.added.foldl insertSet ret) fs1 ids h
        simpa [all_added] using h2

/-- Witness for C9's amended theorem at concrete inputs: a path with no
extension fails import and leaves the update table unchanged, and an
empty update list returns the starting id set. -/
theorem c9_amended_witness :
    collect_step dbBase (fsW, ([] : MAssetStore), ([] : MUpdates)) pNoExt =
      (fsW, ([] : MAssetStore), ([] : MUpdates))
    ∧ ([] : List Nat) = all_added [] [] :=
  ⟨c9_amended.1 dbBase fsW [] [] pNoExt fsW [] ⟨0, .noExtension, none⟩ rfl,
   c9_amended.2 fsW [] [] fsW [] rfl⟩

/-- Claim C10: a path with no extension, or whose extension has no
registered importer, makes import_asset fail before the store is touched
(the returned file system and asset store are the inputs, so no sidecar or
artifact is written), and the ImportError carries `AssetId::default()`,
the all-zero id. -/
theorem c10_dispatch_failure :
    (∀ (db : MDb) (fs : Store) (store : MAssetStore) (p : SPath),
        p.ext = none →
        import_asset db fs store p = (fs, store, .err ⟨0, .noExtension, none⟩))
    ∧ (∀ (db : MDb) (fs : Store) (store : MAssetStore) (p : SPath) (e : Nat),
        p.ext = some e → importer_by_ext db e = none →
        import_asset db fs store p = (fs, store, .err ⟨0, .noImporter, none⟩)) := by
  constructor
  · intro db fs store p h
    simp [import_asset, h]
  · intro db fs store p e h1 h2
    simp [import_asset, h1, h2]

/-- Witness for C10 at concrete inputs: the extensionless path and the
path with unregistered extension 99 against the base database. -/
theorem c10_dispatch_witness :
    import_asset dbBase fsW [] pNoExt = (fsW, ([] : MAssetStore), .err ⟨0, .noExtension, none⟩)
    ∧ import_asset dbBase fsW [] pBadExt =
        (fsW, ([] : MAssetStore), .err ⟨0, .noImporter, none⟩) :=
  ⟨c10_dispatch_failure.1 dbBase fsW [] pNoExt rfl,
   c10_dispatch_failure.2 dbBase fsW [] pBadExt 99 rfl rfl⟩

theorem c5_batch (b : List Nat) :
    import_assets c5Db (c5FsB b) [pathA] = .ok (c5FsB (c5Art b)) [1] := rfl

theorem c5_chunked (b : List Nat) :
    chunked_import c5Db (c5FsB b) [pathA] = .ok (c5FsB (c5Art b)) [1] := rfl

theorem c5_loop : ∀ (n : Nat) (b : List Nat),
    full_import_loop c5Db n [1] (c5FsB b) = none := by
  intro n
  induction n with
  | zero => intro b; rfl
  | succ n ih =>
    intro b
    show (match chunked_import c5Db (c5FsB b) [pathA] with
          | .panic => some .panic
          | .ok fs1 ids => full_import_loop c5Db n ids fs1) = none
    rw [c5_chunked b]
    exact ih (c5Art b)

/-- Claim C5, counterexample: full_import does not terminate on the
concrete scenario where the library maps id 1 to path `a.0`, the sidecar of
`a.0` pins id 1, and the importer declares a dependency on every import:
each pass returns `{1}` (the importing asset's own id, queued because its
dependency set is non-empty, not because a new edge was added), the library
maps it back to `a.0`, and the loop re-imports forever — no iteration bound
suffices. -/
theorem c5_counterexample : c5_diverges := by
  intro n
  show (match chunked_import c5Db (c5FsB [7]) [pathA] with
        | .panic => some .panic
        | .ok fs1 ids => full_import_loop c5Db n ids fs1) = none
  rw [c5_chunked [7]]
  exact c5_loop n (c5Art [7])

/-- Claim C5, amended: full_import maps each returned id set through the
AssetLibrary to paths and repeats until a pass returns the empty set; it
terminates when the library maps no returned id to a path — in particular,
whenever the library's id-to-path map is empty, one extra pass suffices and
the final state is that of the first pass — but it need not terminate in
general (see the divergence above). -/
theorem c5_amended_terminates (db : MDb) (fs fs1 : Store) (paths : List SPath)
    (ids : List Nat) (h1 : db.libraryPaths = [])
    (h2 : chunked_import db fs paths = .ok fs1 ids) :
    full_import db 2 paths fs = some (.ok fs1) := by
  unfold full_import
  rw [h2]
  cases ids with
  | nil => rfl
  | cons x t =>
    have hfm : (x :: t).filterMap (fun id => alookup db.libraryPaths id) = [] := by
      rw [h1]
      simp [alookup]
    have hc : chunked_import db fs1 [] = .ok fs1 [] := rfl
    show full_import_loop db (1 + 1) (x :: t) fs1 = some (.ok fs1)
    simp only [full_import_loop, List.isEmpty_cons, Bool.false_eq_true, if_false, hfm, hc]
    rfl

/-- Witness for C5's amended theorem: the empty database and empty input. -/
theorem c5_terminates_witness :
    full_import ⟨[], [], [], []⟩ 2 [] fsW = some (.ok fsW) :=
  c5_amended_terminates ⟨[], [], [], []⟩ fsW fsW [] [] rfl rfl

/-- Witness for C4's amended theorem at a concrete input. -/
theorem c4_amended_witness :
    calculate_checksum [1] [2] = crc32 (toLE 8 1 ++ [1] ++ toLE 8 1 ++ [2]) :=
  c4_amended [1] [2]
